import Mathlib

/-!
Verification of the k1-pro HID driver (source file k1pro_python.py):
frame codec, image chunking, physical-slot-to-protocol-ID mapping, the
single and batch image-upload paths and their cache behavior, event
decoding, endpoint discovery, and serialization of control-device write
sequences under the control lock.

Bytes are modelled as natural numbers (written values are below 256 in
the source); byte strings are lists of naturals; the Python dict used as
image cache is an association list in insertion order.
-/

namespace K1

/-- Source constant WRITE_SIZE: full report size in bytes. -/
def WRITE_SIZE : Nat := 1024

/-- Source constant DATA_SIZE: payload capacity per packet, excluding the
report-id byte. -/
def DATA_SIZE : Nat := 1023

/-- Source constant REPORT_ID. -/
def REPORT_ID : Nat := 4

/-- Source constant VENDOR_ID. -/
def VENDOR_ID : Nat := 0x5548

/-- Source constant PRODUCT_ID. -/
def PRODUCT_ID : Nat := 0x1025

/-- Source constant USAGE_PAGE. -/
def USAGE_PAGE : Nat := 0xffa0

/-- Source constant STP_COMMAND, the fixed stop frame. -/
def STP_COMMAND : List Nat := [0x43, 0x52, 0x54, 0, 0, 0x53, 0x54, 0x50, 0, 0]

/-- Source constant CONNECT_COMMAND, the heartbeat frame. -/
def CONNECT_COMMAND : List Nat :=
  [0x43, 0x52, 0x54, 0, 0, 0x43, 0x4f, 0x4e, 0x4e, 0x45, 0x43, 0x54]

/-- Source constant BUTTON_ID_MAP: physical button index 0-5 to protocol ID. -/
def BUTTON_ID_MAP : List Nat := [5, 3, 1, 6, 4, 2]

/-- Embeds K1Pro._map_button_for_image: BUTTON_ID_MAP[button_index].
Python raises IndexError for an index outside the list; callers guard the
index, and out-of-range indices are given the irrelevant default 0 here. -/
def map_button_for_image (button_index : Nat) : Nat :=
  BUTTON_ID_MAP.getD button_index 0

/-- Reverse lookup BUTTON_ID_MAP.index(control_id), used by the event loop
in main to map a protocol ID back to the physical button index. -/
def physicalSlot (control_id : Nat) : Nat :=
  BUTTON_ID_MAP.indexOf control_id

/-- Embeds K1Pro._write_report's packet construction: a zero-filled
bytearray of WRITE_SIZE bytes, byte 0 set to REPORT_ID, then the Python
slice assignment packet[1 : 1+len(payload)] = payload.  A Python bytearray
slice assignment replaces the clamped slice with the whole payload, so a
payload longer than DATA_SIZE grows the packet beyond WRITE_SIZE instead
of failing. -/
def write_report_packet (payload : List Nat) : List Nat :=
  REPORT_ID :: payload ++
    List.replicate (WRITE_SIZE - min (1 + payload.length) WRITE_SIZE) 0

/-- Embeds the BAT header construction in K1Pro._send_jpeg_to_button:
13 bytes, prefix CRT NUL NUL BAT NUL NUL, then (size >> 8) & 0xFF,
size & 0xFF, and the protocol button id (a byte: the source stores it
into a bytearray cell, which requires a value below 256). -/
def bat_header (size button_id : Nat) : List Nat :=
  [0x43, 0x52, 0x54, 0, 0, 0x42, 0x41, 0x54, 0, 0] ++
    [size / 256 % 256, size % 256, button_id]

/-- Iteration core of the chunking loop in K1Pro._send_jpeg_to_button.
The loop consumes at least one byte per step, so the explicit fuel is an
upper bound on the step count that makes the recursion structural; it is
always instantiated with the length of the remaining data. -/
def chunksGo : Nat → List Nat → List (List Nat)
  | _, [] => []
  | 0, _ :: _ => []
  | fuel + 1, b :: rest =>
      (b :: rest).take DATA_SIZE :: chunksGo fuel ((b :: rest).drop DATA_SIZE)

/-- Embeds the chunking loop in K1Pro._send_jpeg_to_button:
for i in range(0, len(jpeg_data), DATA_SIZE): chunk = jpeg_data[i : i+DATA_SIZE]. -/
def jpeg_chunks (data : List Nat) : List (List Nat) :=
  chunksGo data.length data

/-- The payload sequence K1Pro._send_jpeg_to_button writes for one image:
BAT header, then the image chunks, then the STP frame. -/
def send_jpeg_writes (button_id : Nat) (jpeg_data : List Nat) : List (List Nat) :=
  bat_header jpeg_data.length button_id :: (jpeg_chunks jpeg_data ++ [STP_COMMAND])

/-- The fuel argument of chunksGo is irrelevant once it bounds the length. -/
lemma chunksGo_fuel : ∀ (f g : Nat) (d : List Nat),
    d.length ≤ f → d.length ≤ g → chunksGo f d = chunksGo g d := by
  intro f
  induction f with
  | zero =>
      intro g d hf _
      have : d = [] := List.eq_nil_of_length_eq_zero (Nat.le_zero.mp hf)
      subst this
      cases g <;> rfl
  | succ f ih =>
      intro g d hf hg
      cases d with
      | nil => cases g <;> rfl
      | cons b rest =>
          cases g with
          | zero => simp at hg
          | succ g =>
              simp only [chunksGo]
              congr 1
              apply ih
              · simp only [List.length_drop, DATA_SIZE] at *
                omega
              · simp only [List.length_drop, DATA_SIZE] at *
                omega

/-- Unfolding: chunking a non-empty buffer yields its first DATA_SIZE bytes
followed by the chunks of the rest. -/
lemma jpeg_chunks_cons (b : Nat) (rest : List Nat) :
    jpeg_chunks (b :: rest) =
      (b :: rest).take DATA_SIZE :: jpeg_chunks ((b :: rest).drop DATA_SIZE) := by
  simp only [jpeg_chunks, List.length_cons, chunksGo]
  congr 1
  apply chunksGo_fuel
  · simp only [List.length_drop, List.length_cons, DATA_SIZE]
    omega
  · exact Nat.le_refl _

/-- Concatenating the chunks reproduces the buffer. -/
lemma jpeg_chunks_join : ∀ (d : List Nat), (jpeg_chunks d).flatten = d
  | [] => rfl
  | b :: rest => by
      rw [jpeg_chunks_cons]
      simp only [List.flatten_cons]
      rw [jpeg_chunks_join ((b :: rest).drop DATA_SIZE)]
      exact List.take_append_drop _ _
termination_by d => d.length
decreasing_by
  simp only [List.length_drop, List.length_cons, DATA_SIZE]
  omega

/-- The number of chunks is the length divided by DATA_SIZE, rounded up. -/
lemma jpeg_chunks_length : ∀ (d : List Nat),
    (jpeg_chunks d).length = (d.length + (DATA_SIZE - 1)) / DATA_SIZE
  | [] => rfl
  | b :: rest => by
      rw [jpeg_chunks_cons]
      simp only [List.length_cons]
      rw [jpeg_chunks_length ((b :: rest).drop DATA_SIZE)]
      simp only [List.length_drop, List.length_cons, DATA_SIZE]
      omega
termination_by d => d.length
decreasing_by
  simp only [List.length_drop, List.length_cons, DATA_SIZE]
  omega

/-- Chunking a non-empty buffer yields at least one chunk. -/
lemma jpeg_chunks_ne_nil (b : Nat) (rest : List Nat) :
    jpeg_chunks (b :: rest) ≠ [] := by
  rw [jpeg_chunks_cons]
  exact List.cons_ne_nil _ _

/-- Every chunk except possibly the last has exactly DATA_SIZE bytes. -/
lemma jpeg_chunks_dropLast : ∀ (d : List Nat),
    ∀ c ∈ (jpeg_chunks d).dropLast, c.length = DATA_SIZE
  | [] => by simp [jpeg_chunks, chunksGo]
  | b :: rest => by
      rw [jpeg_chunks_cons]
      rcases hdrop : (b :: rest).drop DATA_SIZE with _ | ⟨x, xs⟩
      · simp [hdrop, jpeg_chunks, chunksGo]
      · rw [List.dropLast_cons_of_ne_nil (hdrop ▸ jpeg_chunks_ne_nil x xs)]
        intro c hc
        rcases List.mem_cons.mp hc with hc | hc
        · subst hc
          have hlen : DATA_SIZE ≤ (b :: rest).length := by
            by_contra hlt
            have : (b :: rest).drop DATA_SIZE = [] := by
              apply List.drop_eq_nil_of_le
              omega
            rw [hdrop] at this
            exact List.cons_ne_nil _ _ this
          simp only [List.length_take]
          omega
        · exact jpeg_chunks_dropLast ((b :: rest).drop DATA_SIZE) c (hdrop ▸ hc)
termination_by d => d.length
decreasing_by
  simp only [List.length_drop, List.length_cons, DATA_SIZE]
  omega

/-- Every chunk is non-empty and at most DATA_SIZE bytes long. -/
lemma jpeg_chunks_mem : ∀ (d : List Nat),
    ∀ c ∈ jpeg_chunks d, 0 < c.length ∧ c.length ≤ DATA_SIZE
  | [] => by simp [jpeg_chunks, chunksGo]
  | b :: rest => by
      rw [jpeg_chunks_cons]
      intro c hc
      rcases List.mem_cons.mp hc with hc | hc
      · subst hc
        simp only [List.length_take, List.length_cons, DATA_SIZE]
        omega
      · exact jpeg_chunks_mem ((b :: rest).drop DATA_SIZE) c hc
termination_by d => d.length
decreasing_by
  simp only [List.length_drop, List.length_cons, DATA_SIZE]
  omega

/-- Claim C5: for every image buffer of length L and chunk size C = DATA_SIZE
= 1023, the upload protocol emits exactly the round-up of L/C chunks, each
non-empty and of size at most C, every chunk except possibly the last of size
exactly C, and the concatenation of the chunks in emission order equals the
original buffer byte-for-byte. -/
theorem claim_c5_chunking (data : List Nat) :
    (jpeg_chunks data).length = (data.length + (DATA_SIZE - 1)) / DATA_SIZE ∧
    (jpeg_chunks data).flatten = data ∧
    (∀ c ∈ (jpeg_chunks data).dropLast, c.length = DATA_SIZE) ∧
    (∀ c ∈ jpeg_chunks data, 0 < c.length ∧ c.length ≤ DATA_SIZE) :=
  ⟨jpeg_chunks_length data, jpeg_chunks_join data,
   jpeg_chunks_dropLast data, jpeg_chunks_mem data⟩

set_option maxRecDepth 8000 in
/-- Witness for claim C5 at a concrete 1024-byte buffer (two chunks). -/
theorem claim_c5_witness :
    (jpeg_chunks (List.replicate 1024 0)).length = 2 ∧
    (List.replicate 1023 (0 : Nat)).length = DATA_SIZE :=
  ⟨by
     rw [(claim_c5_chunking (List.replicate 1024 0)).1]
     decide,
   (claim_c5_chunking (List.replicate 1024 0)).2.2.1
     (List.replicate 1023 0) (by decide)⟩

/-- Claim C4 (amended): for a payload of at most DATA_SIZE = 1023 bytes the
packet is exactly WRITE_SIZE = 1024 bytes, byte 0 the report id 4, then the
payload, then zero padding; for a longer payload the code does not reject it:
the Python bytearray slice assignment grows the packet, producing an
oversized 1 + length packet with no padding, which is then written. -/
theorem claim_c4_write_report (payload : List Nat) :
    (payload.length ≤ DATA_SIZE →
       write_report_packet payload =
         REPORT_ID :: (payload ++ List.replicate (DATA_SIZE - payload.length) 0) ∧
       (write_report_packet payload).length = WRITE_SIZE) ∧
    (DATA_SIZE < payload.length →
       write_report_packet payload = REPORT_ID :: payload ∧
       (write_report_packet payload).length = 1 + payload.length) := by
  constructor
  · intro h
    simp only [DATA_SIZE] at h
    constructor
    · simp only [write_report_packet, WRITE_SIZE, DATA_SIZE]
      have hmin : 1024 - min (1 + payload.length) 1024 = 1023 - payload.length := by
        omega
      rw [hmin]
      rfl
    · simp only [write_report_packet, WRITE_SIZE, List.length_cons,
        List.length_append, List.length_replicate]
      omega
  · intro h
    simp only [DATA_SIZE] at h
    constructor
    · simp only [write_report_packet, WRITE_SIZE]
      have : 1024 - min (1 + payload.length) 1024 = 0 := by omega
      rw [this]
      simp
    · simp only [write_report_packet, WRITE_SIZE, List.length_cons,
        List.length_append, List.length_replicate]
      omega

/-- Witness for claim C4 at the two-byte payload [7, 8]. -/
theorem claim_c4_witness :
    write_report_packet [7, 8] =
      REPORT_ID :: ([7, 8] ++ List.replicate (DATA_SIZE - 2) 0) ∧
    (write_report_packet [7, 8]).length = WRITE_SIZE := by
  have h := (claim_c4_write_report [7, 8]).1 (by decide)
  exact ⟨h.1, h.2⟩

/-- Counterexample to claim C4 as stated: a 1024-byte payload is not rejected;
a 1025-byte packet is built (and written), so no PayloadTooLarge error exists
in the code. -/
theorem claim_c4_counterexample :
    write_report_packet (List.replicate 1024 7) =
      REPORT_ID :: List.replicate 1024 7 ∧
    (write_report_packet (List.replicate 1024 7)).length = 1025 := by
  constructor
  · simp only [write_report_packet, WRITE_SIZE, List.length_replicate]
    norm_num
  · simp only [write_report_packet, WRITE_SIZE, List.length_cons,
      List.length_append, List.length_replicate]
    norm_num

/-- Claim C6: BUTTON_ID_MAP is a bijection between physical slots 0..5 and
protocol IDs 1..6, and protocol-to-physical reverse lookup composed with the
forward map is the identity on protocol IDs. -/
theorem claim_c6_bijection :
    (∀ s : Fin 6, 1 ≤ map_button_for_image s.val ∧ map_button_for_image s.val ≤ 6) ∧
    (∀ s t : Fin 6, map_button_for_image s.val = map_button_for_image t.val → s = t) ∧
    (∀ p : Fin 6, ∃ s : Fin 6, map_button_for_image s.val = p.val + 1) ∧
    (∀ s : Fin 6,
       map_button_for_image (physicalSlot (map_button_for_image s.val)) =
         map_button_for_image s.val) := by
  decide

/-- Witness for claim C6: injectivity applied at slot 0, and the round trip
through the reverse lookup at slot 0. -/
theorem claim_c6_witness :
    (0 : Fin 6) = 0 ∧
    map_button_for_image (physicalSlot (map_button_for_image 0)) =
      map_button_for_image 0 :=
  ⟨claim_c6_bijection.2.1 0 0 rfl, claim_c6_bijection.2.2.2 0⟩

/-- Claim C7: for every size fitting the 16-bit big-endian field and every
byte-sized protocol id, the BAT header is exactly 13 bytes: the fixed 10-byte
prefix CRT NUL NUL BAT NUL NUL, the size in big-endian 16-bit form, then the
protocol id; decoding the two size bytes big-endian recovers the size. -/
theorem claim_c7_header (size button_id : Nat)
    (hs : size ≤ 65535) (_hb : button_id ≤ 255) :
    (bat_header size button_id).length = 13 ∧
    (bat_header size button_id).take 10 =
      [0x43, 0x52, 0x54, 0, 0, 0x42, 0x41, 0x54, 0, 0] ∧
    (bat_header size button_id).getD 10 0 = size / 256 ∧
    (bat_header size button_id).getD 11 0 = size % 256 ∧
    (bat_header size button_id).getD 12 0 = button_id ∧
    256 * ((bat_header size button_id).getD 10 0) +
      (bat_header size button_id).getD 11 0 = size := by
  refine ⟨rfl, rfl, ?_, rfl, rfl, ?_⟩
  · show size / 256 % 256 = size / 256
    omega
  · show 256 * (size / 256 % 256) + size % 256 = size
    omega

/-- Witness for claim C7 at size 1500 and protocol id 3: the size bytes are
0x05 and 0xDC and the trailing byte is 0x03. -/
theorem claim_c7_witness :
    (bat_header 1500 3).getD 10 0 = 0x05 ∧
    (bat_header 1500 3).getD 11 0 = 0xDC ∧
    (bat_header 1500 3).getD 12 0 = 0x03 := by
  obtain ⟨-, -, h10, h11, h12, -⟩ := claim_c7_header 1500 3 (by decide) (by decide)
  refine ⟨?_, ?_, ?_⟩
  · rw [h10]
  · rw [h11]
  · rw [h12]

/-- The errors K1Pro upload methods raise: RuntimeError when not connected,
ValueError on an out-of-range button index, and a propagated device write
error (OSError / RuntimeError from the transport). -/
inductive K1Error
  | notConnected
  | invalidIndex
  | writeFailed
deriving DecidableEq

/-- The driver state the cache claims are about: the connected flag and the
image cache self._button_images, a Python dict from button index to jpeg
bytes kept in insertion order. -/
structure K1State where
  connected : Bool
  cache : List (Nat × List Nat)
deriving DecidableEq

/-- Python dict assignment d[k] = v on an insertion-ordered association
list: overwrite in place when the key exists, otherwise append. -/
def dictSet : List (Nat × List Nat) → Nat → List Nat → List (Nat × List Nat)
  | [], k, v => [(k, v)]
  | (k0, v0) :: rest, k, v =>
      if k0 = k then (k, v) :: rest else (k0, v0) :: dictSet rest k v

/-- Python dict lookup d.get(k). -/
def dictGet : List (Nat × List Nat) → Nat → Option (List Nat)
  | [], _ => none
  | (k0, v0) :: rest, k => if k0 = k then some v0 else dictGet rest k

/-- Fault model for the control transport: device.write number k (counted
across one driver call) raises iff failures k is true.  Writes are attempted
in order and the first failure aborts the remaining ones, like a propagating
Python exception; on success the next write number is returned. -/
def runWrites (failures : Nat → Bool) : Nat → List (List Nat) → Except Unit Nat
  | k, [] => Except.ok k
  | k, _ :: ws =>
      if failures k then Except.error () else runWrites failures (k + 1) ws

/-- Embeds K1Pro.set_button_image: raise when not connected, raise on an
out-of-range index, otherwise cache the buffer (the source line
self._button_images[button_index] = jpeg_data runs before the locked write
sequence), then write header, chunks and STP under the control lock; a write
error propagates after the cache was already updated. -/
def set_button_image (failures : Nat → Bool) (s : K1State)
    (button_index : Nat) (jpeg_data : List Nat) :
    Except K1Error Unit × K1State :=
  if s.connected = false then (Except.error K1Error.notConnected, s)
  else if 6 ≤ button_index then (Except.error K1Error.invalidIndex, s)
  else
    let s1 : K1State := ⟨s.connected, dictSet s.cache button_index jpeg_data⟩
    match runWrites failures 0
        (send_jpeg_writes (map_button_for_image button_index) jpeg_data) with
    | Except.ok _ => (Except.ok (), s1)
    | Except.error _ => (Except.error K1Error.writeFailed, s1)

/-- Embeds the item loop of K1Pro.set_multiple_images: an out-of-range index
is skipped with a message and the loop continues; an in-range item is sent
via _send_jpeg_to_button, and a write error propagates out of the loop,
aborting all remaining items.  Returns whether the loop completed without an
exception, together with the indices sent successfully, in order. -/
def smiLoop (failures : Nat → Bool) :
    Nat → List (Nat × List Nat) → Bool × List Nat
  | _, [] => (true, [])
  | k, (button_index, jpeg_data) :: rest =>
      if button_index < 6 then
        match runWrites failures k
            (send_jpeg_writes (map_button_for_image button_index) jpeg_data) with
        | Except.ok k1 =>
            let r := smiLoop failures k1 rest
            (r.1, button_index :: r.2)
        | Except.error _ => (false, [])
      else smiLoop failures k rest

/-- Embeds K1Pro.set_multiple_images: raise when not connected; otherwise
run the whole item loop under a single control-lock acquisition.  The
function never touches self._button_images, so the state is returned with
the cache exactly as it was. -/
def set_multiple_images (failures : Nat → Bool) (s : K1State)
    (images : List (Nat × List Nat)) :
    Except K1Error (List Nat) × K1State :=
  if s.connected = false then (Except.error K1Error.notConnected, s)
  else
    match smiLoop failures 0 images with
    | (true, sent) => (Except.ok sent, s)
    | (false, _) => (Except.error K1Error.writeFailed, s)

/-- The control payload sequence one keepalive cycle writes (the body of
K1Pro._keepalive_loop): every cached image in cache iteration order via
_send_jpeg_to_button, then the CONNECT heartbeat when it is due. -/
def keepalive_cycle_writes (cache : List (Nat × List Nat))
    (heartbeat_due : Bool) : List (List Nat) :=
  (cache.map (fun e => send_jpeg_writes (map_button_for_image e.1) e.2)).flatten
    ++ (if heartbeat_due then [CONNECT_COMMAND] else [])

/-- dict lookup after assignment at the same key. -/
lemma dictGet_dictSet_self (c : List (Nat × List Nat)) (k : Nat) (v : List Nat) :
    dictGet (dictSet c k v) k = some v := by
  induction c with
  | nil => simp [dictSet, dictGet]
  | cons e rest ih =>
      obtain ⟨k0, v0⟩ := e
      by_cases h : k0 = k
      · subst h
        simp [dictSet, dictGet]
      · simp [dictSet, dictGet, h, ih]

/-- dict lookup after assignment at a different key. -/
lemma dictGet_dictSet_ne (c : List (Nat × List Nat)) (k j : Nat) (v : List Nat)
    (h : j ≠ k) : dictGet (dictSet c k v) j = dictGet c j := by
  induction c with
  | nil =>
      have hkj : ¬ k = j := fun e => h e.symm
      simp [dictSet, dictGet, hkj]
  | cons e rest ih =>
      obtain ⟨k0, v0⟩ := e
      by_cases h0 : k0 = k
      · subst h0
        have hkj : ¬ k0 = j := fun e => h e.symm
        simp [dictSet, dictGet, hkj]
      · by_cases hj : k0 = j
        · subst hj
          simp [dictSet, dictGet, h0]
        · simp [dictSet, dictGet, h0, hj, ih]

/-- Claim C1 (amended): for a connected device and an in-range slot, upload
surfaces a device write error, but the cache entry for the slot is written
before any control write is attempted, so after the call — successful or
failed — the cache holds the new buffer for that slot; entries of other
slots are untouched.  A failed upload therefore does not preserve the prior
cached value for the slot. -/
theorem claim_c1_upload_cache (failures : Nat → Bool) (s : K1State)
    (button_index : Nat) (jpeg_data : List Nat)
    (hc : s.connected = true) (hi : button_index < 6) :
    (set_button_image failures s button_index jpeg_data).2.cache =
      dictSet s.cache button_index jpeg_data ∧
    dictGet (set_button_image failures s button_index jpeg_data).2.cache
      button_index = some jpeg_data ∧
    (∀ j, j ≠ button_index →
       dictGet (set_button_image failures s button_index jpeg_data).2.cache j =
         dictGet s.cache j) ∧
    ((set_button_image failures s button_index jpeg_data).1 = Except.ok () ∨
     (set_button_image failures s button_index jpeg_data).1 =
       Except.error K1Error.writeFailed) := by
  have hc' : ¬ s.connected = false := by simp [hc]
  have hi' : ¬ 6 ≤ button_index := by omega
  have hcache : (set_button_image failures s button_index jpeg_data).2.cache =
      dictSet s.cache button_index jpeg_data := by
    simp only [set_button_image, hc', hi', if_false]
    cases runWrites failures 0
        (send_jpeg_writes (map_button_for_image button_index) jpeg_data) <;> rfl
  refine ⟨hcache, ?_, ?_, ?_⟩
  · rw [hcache]
    exact dictGet_dictSet_self _ _ _
  · intro j hj
    rw [hcache]
    exact dictGet_dictSet_ne _ _ _ _ hj
  · simp only [set_button_image, hc', hi', if_false]
    cases runWrites failures 0
        (send_jpeg_writes (map_button_for_image button_index) jpeg_data)
    · exact Or.inr rfl
    · exact Or.inl rfl

/-- Witness for claim C1: a failing upload over a cache that held [5] for
slot 0 leaves the new buffer [1] cached for slot 0 and slot 1 untouched. -/
theorem claim_c1_witness :
    (set_button_image (fun _ => true) ⟨true, [(0, [5])]⟩ 0 [1]).2.cache =
      dictSet [(0, [5])] 0 [1] ∧
    dictGet (set_button_image (fun _ => true) ⟨true, [(0, [5])]⟩ 0 [1]).2.cache 1 =
      dictGet [(0, [5])] 1 :=
  ⟨(claim_c1_upload_cache (fun _ => true) ⟨true, [(0, [5])]⟩ 0 [1] rfl
      (by decide)).1,
   (claim_c1_upload_cache (fun _ => true) ⟨true, [(0, [5])]⟩ 0 [1] rfl
      (by decide)).2.2.1 1 (by decide)⟩

/-- Counterexample to claim C1 as stated: slot 0 starts with no cached
value; every control write fails; the upload surfaces the write error, yet
the cache entry for slot 0 now holds the attempted buffer instead of being
absent as before the call. -/
theorem claim_c1_counterexample :
    (set_button_image (fun _ => true) ⟨true, []⟩ 0 [1]).1 =
      Except.error K1Error.writeFailed ∧
    dictGet (set_button_image (fun _ => true) ⟨true, []⟩ 0 [1]).2.cache 0 =
      some [1] ∧
    dictGet ([] : List (Nat × List Nat)) 0 = none :=
  ⟨rfl, rfl, rfl⟩

/-- Claim C2 (amended): the batch upload runs its whole item loop under one
control-lock acquisition and skips items with an out-of-range slot,
continuing with the rest; but a write failure on an in-range item raises out
of the loop and aborts all remaining items, and the batch then surfaces the
write error rather than a report of the successful items. -/
theorem claim_c2_batch :
    (∀ (failures : Nat → Bool) (k button_index : Nat) (jpeg_data : List Nat)
        (rest : List (Nat × List Nat)), ¬ button_index < 6 →
       smiLoop failures k ((button_index, jpeg_data) :: rest) =
         smiLoop failures k rest) ∧
    (∀ (failures : Nat → Bool) (k button_index : Nat) (jpeg_data : List Nat)
        (rest : List (Nat × List Nat)), button_index < 6 →
       runWrites failures k
           (send_jpeg_writes (map_button_for_image button_index) jpeg_data) =
         Except.error () →
       smiLoop failures k ((button_index, jpeg_data) :: rest) = (false, [])) ∧
    (∀ (failures : Nat → Bool) (s : K1State) (images : List (Nat × List Nat)),
       s.connected = true → (smiLoop failures 0 images).1 = false →
       (set_multiple_images failures s images).1 =
         Except.error K1Error.writeFailed) := by
  refine ⟨?_, ?_, ?_⟩
  · intro failures k button_index jpeg_data rest h
    simp [smiLoop, h]
  · intro failures k button_index jpeg_data rest h hw
    simp [smiLoop, h, hw]
  · intro failures s images hc hfail
    have hc' : ¬ s.connected = false := by simp [hc]
    simp only [set_multiple_images, hc', if_false]
    rcases h : smiLoop failures 0 images with ⟨b, sent⟩
    rw [h] at hfail
    simp only at hfail
    subst hfail
    rfl

/-- Witness for claim C2: the out-of-range item 9 is skipped (the loop
result equals that of the remaining items), and with every write failing,
an in-range first item aborts the batch. -/
theorem claim_c2_witness :
    smiLoop (fun _ => true) 0 [(9, [1]), (2, [3])] =
      smiLoop (fun _ => true) 0 [(2, [3])] ∧
    smiLoop (fun _ => true) 0 [(2, [3]), (1, [4])] = (false, []) :=
  ⟨claim_c2_batch.1 (fun _ => true) 0 9 [1] [(2, [3])] (by decide),
   claim_c2_batch.2.1 (fun _ => true) 0 2 [3] [(1, [4])] (by decide) rfl⟩

/-- Counterexample to claim C2 as stated: only control write number 0 fails
(the BAT header of the first item).  The first item aborts the whole batch
with the propagated write error and the second, in-range item is never
attempted — although the very same remaining batch would have succeeded and
reported its item had the loop continued. -/
theorem claim_c2_counterexample :
    (set_multiple_images (fun i => i == 0) ⟨true, []⟩ [(0, [9]), (1, [9])]).1 =
      Except.error K1Error.writeFailed ∧
    smiLoop (fun i => i == 0) 0 [(0, [9]), (1, [9])] = (false, []) ∧
    smiLoop (fun i => i == 0) 3 [(1, [9])] = (true, [1]) :=
  ⟨rfl, rfl, rfl⟩

/-- Claim C10: the batch upload never creates or overwrites any cache entry
— the state including the cache comes back exactly as it went in — so a
keepalive cycle after a batch upload resends exactly what it would have
resent before: only images set through the single-slot upload path. -/
theorem claim_c10_batch_frame (failures : Nat → Bool) (s : K1State)
    (images : List (Nat × List Nat)) (heartbeat_due : Bool) :
    (set_multiple_images failures s images).2 = s ∧
    keepalive_cycle_writes (set_multiple_images failures s images).2.cache
        heartbeat_due =
      keepalive_cycle_writes s.cache heartbeat_due := by
  have hstate : (set_multiple_images failures s images).2 = s := by
    simp only [set_multiple_images]
    split
    · rfl
    · split <;> rfl
  exact ⟨hstate, by rw [hstate]⟩

/-- One entry of hid.enumerate with the fields K1Pro.connect reads. -/
structure HidDev where
  vendor_id : Nat
  product_id : Nat
  usage_page : Nat
  usage : Nat
  path : String
deriving DecidableEq

/-- The errors K1Pro.connect can raise during discovery. -/
inductive ConnectError
  | deviceNotFound
  | controlNotFound
deriving DecidableEq

/-- An enumerated interface matching the k1-pro vendor/product pair. -/
def matches_vid_pid (d : HidDev) : Bool :=
  d.vendor_id == VENDOR_ID && d.product_id == PRODUCT_ID

/-- An interface on the k1-pro usage page with the control usage 1. -/
def is_control_usage (d : HidDev) : Bool :=
  d.usage_page == USAGE_PAGE && d.usage == 1

/-- An interface on the k1-pro usage page with the event usage 2. -/
def is_event_usage (d : HidDev) : Bool :=
  d.usage_page == USAGE_PAGE && d.usage == 2

/-- Embeds the discovery part of K1Pro.connect (before the init sequence):
raise when no enumerated interface matches the vendor/product pair;
otherwise walk the matching interfaces, assigning the control path on usage
1 and the event path on usage 2 (a later entry overwrites an earlier one, so
the last match wins); raise only when the control path is still unset — the
event path is never checked, and remains unset when no usage-2 interface
exists.  Returns the control path and the optional event path. -/
def connect_discover (devs : List HidDev) :
    Except ConnectError (String × Option String) :=
  if (devs.filter matches_vid_pid).isEmpty then
    Except.error ConnectError.deviceNotFound
  else
    match ((devs.filter matches_vid_pid).filter is_control_usage).getLast? with
    | none => Except.error ConnectError.controlNotFound
    | some c =>
        Except.ok (c.path,
          (((devs.filter matches_vid_pid).filter is_event_usage).getLast?).map
            HidDev.path)

/-- Claim C8 (amended): discovery fails with the device-not-found error
exactly when no interface matches the vendor/product pair; with matches
present it fails exactly when the usage-page filter yields no control-usage
interface; when a control interface exists discovery succeeds — even with no
event-usage interface, in which case the event path is simply left
unassigned rather than raising the endpoint error the claim expects. -/
theorem claim_c8_discovery (devs : List HidDev) :
    ((devs.filter matches_vid_pid).isEmpty = true →
       connect_discover devs = Except.error ConnectError.deviceNotFound) ∧
    ((devs.filter matches_vid_pid).isEmpty = false →
       ((devs.filter matches_vid_pid).filter is_control_usage).getLast? = none →
       connect_discover devs = Except.error ConnectError.controlNotFound) ∧
    (∀ c, (devs.filter matches_vid_pid).isEmpty = false →
       ((devs.filter matches_vid_pid).filter is_control_usage).getLast? = some c →
       connect_discover devs =
         Except.ok (c.path,
           (((devs.filter matches_vid_pid).filter is_event_usage).getLast?).map
             HidDev.path)) := by
  refine ⟨?_, ?_, ?_⟩
  · intro h
    simp only [connect_discover]
    rw [h]
    rfl
  · intro h hc
    simp only [connect_discover]
    rw [h, hc]
    rfl
  · intro c h hc
    simp only [connect_discover]
    rw [h, hc]
    rfl

/-- Witness for claim C8: one control-only interface discovers successfully
with no event path. -/
theorem claim_c8_witness :
    connect_discover [⟨VENDOR_ID, PRODUCT_ID, USAGE_PAGE, 1, "c"⟩] =
      Except.ok ("c", none) :=
  claim_c8_discovery [⟨VENDOR_ID, PRODUCT_ID, USAGE_PAGE, 1, "c"⟩] |>.2.2
    ⟨VENDOR_ID, PRODUCT_ID, USAGE_PAGE, 1, "c"⟩ rfl rfl

/-- Counterexample to claim C8 as stated: a device exposing only the control
usage.  The claim requires the endpoint-not-found failure because the event
usage is missing; the code succeeds, with the event path unassigned. -/
theorem claim_c8_counterexample :
    connect_discover
        [⟨VENDOR_ID, PRODUCT_ID, USAGE_PAGE, 1, "c"⟩,
         ⟨VENDOR_ID, PRODUCT_ID, 5, 2, "x"⟩] =
      Except.ok ("c", none) := rfl

/-- Semantic events as classified by the inline event loop in main. -/
inductive Event
  | button (slot : Nat) (pressed : Bool)
  | knobTurn (knob : Nat) (clockwise : Bool)
  | knobPress (knob : Nat)
  | unknownControl (control_id state : Nat)
  | modeReverted
  | keyPress (key_id : Nat)
  | unknownReport (report_id : Nat)
deriving DecidableEq

/-- Embeds the data handling of K1Pro.read_button_event: an empty read or a
report of fewer than 2 bytes yields no event; otherwise the function returns
the raw pair (data[0], data[1] == 1) without inspecting the report id, the
control-code byte at offset 10 or the button-id bijection. -/
def read_button_event (data : List Nat) : Option (Nat × Bool) :=
  if data.length < 2 then none
  else some (data.getD 0 0, data.getD 1 0 == 1)

/-- Embeds the event classification of the inline read loop in main:
reports of fewer than 2 bytes are skipped.  Report id 4 carries the control
code at byte 10 and the state at byte 11 (the source indexes the bytes
directly; inbound reports are read with size WRITE_SIZE).  A control code
present in BUTTON_ID_MAP is a button event for the physical slot obtained by
reverse lookup — pressed on state 1, released on state 0, and silently
ignored on any other state; the fixed codes 0x51/0x50, 0x61/0x60, 0x91/0x90
decode knob 1, 2, 3 turns (clockwise/counter-clockwise) and 0x25, 0x30, 0x31
knob presses; any other code is an unknown control.  Report id 1 with byte 1
equal to 0 is the mode-reversion signal (main responds by re-sending the
cached images through refresh_images); a non-zero byte 1 is a key press.
Any other report id is surfaced as unknown. -/
def decode_main_event (data : List Nat) : Option Event :=
  if data.length < 2 then none
  else if data.getD 0 0 = 4 then
    if data.getD 10 0 ∈ BUTTON_ID_MAP then
      if data.getD 11 0 = 1 then
        some (Event.button (physicalSlot (data.getD 10 0)) true)
      else if data.getD 11 0 = 0 then
        some (Event.button (physicalSlot (data.getD 10 0)) false)
      else none
    else if data.getD 10 0 = 0x51 then some (Event.knobTurn 1 true)
    else if data.getD 10 0 = 0x50 then some (Event.knobTurn 1 false)
    else if data.getD 10 0 = 0x61 then some (Event.knobTurn 2 true)
    else if data.getD 10 0 = 0x60 then some (Event.knobTurn 2 false)
    else if data.getD 10 0 = 0x91 then some (Event.knobTurn 3 true)
    else if data.getD 10 0 = 0x90 then some (Event.knobTurn 3 false)
    else if data.getD 10 0 = 0x25 then some (Event.knobPress 1)
    else if data.getD 10 0 = 0x30 then some (Event.knobPress 2)
    else if data.getD 10 0 = 0x31 then some (Event.knobPress 3)
    else some (Event.unknownControl (data.getD 10 0) (data.getD 11 0))
  else if data.getD 0 0 = 1 then
    if data.getD 1 0 = 0 then some Event.modeReverted
    else some (Event.keyPress (data.getD 1 0))
  else some (Event.unknownReport (data.getD 0 0))

/-- Forward map after reverse lookup recovers a mapped control code. -/
lemma map_physicalSlot_of_mem :
    ∀ c ∈ BUTTON_ID_MAP, map_button_for_image (physicalSlot c) = c := by
  decide

/-- Claim C3 (amended): the decoding the claim describes is performed by the
inline read loop in main, not by read_button_event.  For a full-size report:
with report id 4 and a control code that is some physical button's protocol
ID, the loop emits a button event whose slot is the reverse-bijection lookup
of the code — pressed when the state byte is 1, released when it is 0, and
nothing for any other state; the fixed knob codes yield the knob turn and
press events; report id 1 with release byte 0 is surfaced distinctly as the
mode-reversion signal.  read_button_event itself returns only the raw pair
(data[0], data[1] == 1). -/
theorem claim_c3_decode (data : List Nat) (hlen : 12 ≤ data.length) :
    (data.getD 0 0 = 4 → data.getD 10 0 ∈ BUTTON_ID_MAP →
       (data.getD 11 0 = 1 →
          decode_main_event data =
            some (Event.button (physicalSlot (data.getD 10 0)) true)) ∧
       (data.getD 11 0 = 0 →
          decode_main_event data =
            some (Event.button (physicalSlot (data.getD 10 0)) false)) ∧
       (data.getD 11 0 ≠ 1 → data.getD 11 0 ≠ 0 →
          decode_main_event data = none) ∧
       map_button_for_image (physicalSlot (data.getD 10 0)) = data.getD 10 0) ∧
    (data.getD 0 0 = 4 → data.getD 10 0 = 0x51 →
       decode_main_event data = some (Event.knobTurn 1 true)) ∧
    (data.getD 0 0 = 4 → data.getD 10 0 = 0x90 →
       decode_main_event data = some (Event.knobTurn 3 false)) ∧
    (data.getD 0 0 = 4 → data.getD 10 0 = 0x25 →
       decode_main_event data = some (Event.knobPress 1)) ∧
    (data.getD 0 0 = 1 → data.getD 1 0 = 0 →
       decode_main_event data = some Event.modeReverted) ∧
    read_button_event data = some (data.getD 0 0, data.getD 1 0 == 1) := by
  have h2 : ¬ data.length < 2 := by omega
  refine ⟨?_, ?_, ?_, ?_, ?_, ?_⟩
  · intro h0 hmem
    refine ⟨?_, ?_, ?_, map_physicalSlot_of_mem _ hmem⟩
    · intro hst
      simp only [List.getD_eq_getElem?_getD] at h0 hmem hst
      simp [decode_main_event, h2, h0, hmem, hst]
    · intro hst
      simp only [List.getD_eq_getElem?_getD] at h0 hmem hst
      simp [decode_main_event, h2, h0, hmem, hst]
    · intro hst1 hst0
      simp only [List.getD_eq_getElem?_getD] at h0 hmem hst1 hst0
      simp [decode_main_event, h2, h0, hmem, hst1, hst0]
  · intro h0 hc
    have hnm : (0x51 : Nat) ∉ BUTTON_ID_MAP := by decide
    simp only [List.getD_eq_getElem?_getD] at h0 hc
    simp [decode_main_event, h2, h0, hc, hnm]
  · intro h0 hc
    have hnm : (0x90 : Nat) ∉ BUTTON_ID_MAP := by decide
    simp only [List.getD_eq_getElem?_getD] at h0 hc
    simp [decode_main_event, h2, h0, hc, hnm]
  · intro h0 hc
    have hnm : (0x25 : Nat) ∉ BUTTON_ID_MAP := by decide
    simp only [List.getD_eq_getElem?_getD] at h0 hc
    simp [decode_main_event, h2, h0, hc, hnm]
  · intro h0 h1
    simp only [List.getD_eq_getElem?_getD] at h0 h1
    simp [decode_main_event, h2, h0, h1]
  · simp [read_button_event, h2]

/-- Witness for claim C3 at the concrete report with report id 4, control
code 5 at byte 10 and state 1 at byte 11: the loop decodes the button event
for physical slot 0 pressed, while read_button_event returns the raw pair. -/
theorem claim_c3_witness :
    decode_main_event [4, 0, 0, 0, 0, 0, 0, 0, 0, 0, 5, 1] =
      some (Event.button 0 true) ∧
    read_button_event [4, 0, 0, 0, 0, 0, 0, 0, 0, 0, 5, 1] = some (4, false) := by
  have h := claim_c3_decode [4, 0, 0, 0, 0, 0, 0, 0, 0, 0, 5, 1] (by decide)
  constructor
  · rw [(h.1 rfl (by decide)).1 rfl]
    rfl
  · rw [h.2.2.2.2.2]
    rfl

/-- Counterexample to claim C3 as stated: for the same report — id 4,
mapped control code 5 at byte 10, state 1 at byte 11 — the claim requires
readEvent to emit the button event for slot 0 pressed; read_button_event
instead returns the raw pair (data[0], data[1] == 1) = (4, false), not the
decoded slot and state. -/
theorem claim_c3_counterexample :
    read_button_event [4, 0, 0, 0, 0, 0, 0, 0, 0, 0, 5, 1] = some (4, false) ∧
    physicalSlot 5 = 0 ∧
    read_button_event [4, 0, 0, 0, 0, 0, 0, 0, 0, 0, 5, 1] ≠ some (0, true) := by
  refine ⟨rfl, rfl, ?_⟩
  intro h
  simp [read_button_event] at h

/-- The two execution contexts of the driver: the caller thread (a) and the
keepalive daemon thread (b).  The source has exactly these two contexts. -/
inductive Tid
  | a
  | b
deriving DecidableEq

/-- A state of the two-thread interleaving model.  Each thread runs one
control-write sequence of the source wrapped in a with-self._control_lock
block: acquire, then its writes in order, then release.  The program
counters pa and pb are 0 before the acquire, 1 + i after i writes inside
the critical section, n + 1 before the release and n + 2 when finished,
where n is the thread's write count.  lock is the current holder of
_control_lock; out records every control-device write so far, tagged by
the writing thread, in order. -/
structure CState where
  lock : Option Tid
  pa : Nat
  pb : Nat
  out : List Tid
deriving DecidableEq

/-- Small-step interleaving semantics: thread a performs na control writes
and thread b performs nb, each under a single acquisition of the control
lock, exactly as the with-blocks of send_init, set_button_image,
set_multiple_images, refresh_images, send_keepalive and the keepalive cycle
in _keepalive_loop wrap all their _write_report calls.  Acquire is only
enabled while no thread holds the lock — threading.Lock blocks the other
acquirer — and a write is only enabled for the thread holding the lock. -/
inductive Step (na nb : Nat) : CState → CState → Prop
  | acqA (s : CState) : s.lock = none → s.pa = 0 →
      Step na nb s { s with lock := some Tid.a, pa := 1 }
  | wrA (s : CState) : s.lock = some Tid.a → 1 ≤ s.pa → s.pa ≤ na →
      Step na nb s { s with pa := s.pa + 1, out := s.out ++ [Tid.a] }
  | relA (s : CState) : s.lock = some Tid.a → s.pa = na + 1 →
      Step na nb s { s with lock := none, pa := na + 2 }
  | acqB (s : CState) : s.lock = none → s.pb = 0 →
      Step na nb s { s with lock := some Tid.b, pb := 1 }
  | wrB (s : CState) : s.lock = some Tid.b → 1 ≤ s.pb → s.pb ≤ nb →
      Step na nb s { s with pb := s.pb + 1, out := s.out ++ [Tid.b] }
  | relB (s : CState) : s.lock = some Tid.b → s.pb = nb + 1 →
      Step na nb s { s with lock := none, pb := nb + 2 }

/-- Initial state: both sequences pending, lock free, nothing written. -/
def initState : CState := ⟨none, 0, 0, []⟩

/-- The states reachable in some interleaving of the two sequences. -/
def Reachable (na nb : Nat) (s : CState) : Prop :=
  Relation.ReflTransGen (Step na nb) initState s

/-- Number of writes thread a has completed. -/
def doneA (na : Nat) (s : CState) : Nat := min (s.pa - 1) na

/-- Number of writes thread b has completed. -/
def doneB (nb : Nat) (s : CState) : Nat := min (s.pb - 1) nb

/-- Number of concurrently held acquisitions of the control lock. -/
def lockHeld (s : CState) : Nat :=
  match s.lock with
  | none => 0
  | some _ => 1

/-- The write trace consists of at most two uniform blocks: one thread's
writes form a contiguous run, followed by the other thread's writes —
never an alternation. -/
def blockForm (l : List Tid) : Prop :=
  ∃ i j, l = List.replicate i Tid.a ++ List.replicate j Tid.b ∨
         l = List.replicate i Tid.b ++ List.replicate j Tid.a

/-- Inductive invariant of the interleaving: program counters are bounded;
a thread holds the lock exactly while its counter is inside its critical
section; and the trace is two uniform blocks where a closed first block can
only belong to a thread that finished its whole sequence. -/
def Inv (na nb : Nat) (s : CState) : Prop :=
  s.pa ≤ na + 2 ∧ s.pb ≤ nb + 2 ∧
  (s.lock = some Tid.a ↔ (1 ≤ s.pa ∧ s.pa ≤ na + 1)) ∧
  (s.lock = some Tid.b ↔ (1 ≤ s.pb ∧ s.pb ≤ nb + 1)) ∧
  ((s.out = List.replicate (doneA na s) Tid.a ++ List.replicate (doneB nb s) Tid.b ∧
      (1 ≤ doneA na s → 1 ≤ doneB nb s → s.pa = na + 2)) ∨
   (s.out = List.replicate (doneB nb s) Tid.b ++ List.replicate (doneA na s) Tid.a ∧
      (1 ≤ doneB nb s → 1 ≤ doneA na s → s.pb = nb + 2)))

/-- The invariant holds initially. -/
lemma inv_init (na nb : Nat) : Inv na nb initState := by
  refine ⟨?_, ?_, ?_, ?_, Or.inl ⟨?_, ?_⟩⟩ <;>
    simp [initState, doneA, doneB]

/-- The invariant is preserved by every step. -/
lemma inv_step (na nb : Nat) (s t : CState) (hinv : Inv na nb s)
    (hstep : Step na nb s t) : Inv na nb t := by
  obtain ⟨hpa, hpb, hla, hlb, hout⟩ := hinv
  cases hstep with
  | acqA hl hp =>
      rw [hl] at hla hlb
      have hnb : ¬ (1 ≤ s.pb ∧ s.pb ≤ nb + 1) :=
        fun hc => Option.noConfusion (hlb.mpr hc)
      refine ⟨?_, ?_, ?_, ?_, ?_⟩
      · show (1 : Nat) ≤ na + 2
        omega
      · show s.pb ≤ nb + 2
        exact hpb
      · show some Tid.a = some Tid.a ↔ 1 ≤ 1 ∧ 1 ≤ na + 1
        exact ⟨fun _ => by omega, fun _ => rfl⟩
      · show some Tid.a = some Tid.b ↔ 1 ≤ s.pb ∧ s.pb ≤ nb + 1
        exact ⟨fun h => Tid.noConfusion (Option.some.inj h), fun hc => absurd hc hnb⟩
      · simp only [doneA, doneB] at hout ⊢
        rw [hp] at hout
        rcases hout with ⟨heq, -⟩ | ⟨heq, -⟩
        · exact Or.inl ⟨heq, fun h1 _ => absurd h1 (by omega)⟩
        · exact Or.inr ⟨heq, fun _ h2 => absurd h2 (by omega)⟩
  | wrA hl h1 h2 =>
      rw [hl] at hla hlb
      rw [hl]
      have hnb : ¬ (1 ≤ s.pb ∧ s.pb ≤ nb + 1) :=
        fun hc => Tid.noConfusion (Option.some.inj (hlb.mpr hc))
      refine ⟨?_, ?_, ?_, ?_, ?_⟩
      · show s.pa + 1 ≤ na + 2
        omega
      · show s.pb ≤ nb + 2
        exact hpb
      · show some Tid.a = some Tid.a ↔ 1 ≤ s.pa + 1 ∧ s.pa + 1 ≤ na + 1
        exact ⟨fun _ => by omega, fun _ => rfl⟩
      · show some Tid.a = some Tid.b ↔ 1 ≤ s.pb ∧ s.pb ≤ nb + 1
        exact ⟨fun h => Tid.noConfusion (Option.some.inj h), fun hc => absurd hc hnb⟩
      · simp only [doneA, doneB] at hout ⊢
        have hda : min (s.pa + 1 - 1) na = min (s.pa - 1) na + 1 := by omega
        rcases hout with ⟨heq, himp⟩ | ⟨heq, himp⟩
        · by_cases hdb : min (s.pb - 1) nb = 0
          · refine Or.inl ⟨?_, ?_⟩
            · rw [hdb, List.replicate_zero, List.append_nil] at heq
              rw [heq, hdb, List.replicate_zero, List.append_nil, hda,
                List.replicate_succ']
            · intro _ hb
              exact absurd hb (by omega)
          · have hpb2 : s.pb = nb + 2 := by omega
            have hda0 : min (s.pa - 1) na = 0 := by
              by_contra hda1
              have := himp (by omega) (by omega)
              omega
            rw [hda0, List.replicate_zero, List.nil_append] at heq
            refine Or.inr ⟨?_, ?_⟩
            · have hda1 : min (s.pa + 1 - 1) na = 1 := by omega
              rw [heq, hda1, List.replicate_one]
            · intro _ _
              show s.pb = nb + 2
              exact hpb2
        · refine Or.inr ⟨?_, ?_⟩
          · rw [heq, List.append_assoc, hda, List.replicate_succ']
          · intro hb _
            show s.pb = nb + 2
            omega
  | relA hl hp =>
      rw [hl] at hla hlb
      have hnb : ¬ (1 ≤ s.pb ∧ s.pb ≤ nb + 1) :=
        fun hc => Tid.noConfusion (Option.some.inj (hlb.mpr hc))
      refine ⟨?_, ?_, ?_, ?_, ?_⟩
      · show na + 2 ≤ na + 2
        omega
      · show s.pb ≤ nb + 2
        exact hpb
      · show (none : Option Tid) = some Tid.a ↔ 1 ≤ na + 2 ∧ na + 2 ≤ na + 1
        exact ⟨fun h => Option.noConfusion h, fun hc => absurd hc (by omega)⟩
      · show (none : Option Tid) = some Tid.b ↔ 1 ≤ s.pb ∧ s.pb ≤ nb + 1
        exact ⟨fun h => Option.noConfusion h, fun hc => absurd hc hnb⟩
      · simp only [doneA, doneB] at hout ⊢
        rw [hp] at hout
        have hda : min (na + 2 - 1) na = min (na + 1 - 1) na := by omega
        rw [hda]
        rcases hout with ⟨heq, -⟩ | ⟨heq, himp⟩
        · exact Or.inl ⟨heq, fun _ _ => trivial⟩
        · exact Or.inr ⟨heq, himp⟩
  | acqB hl hp =>
      rw [hl] at hla hlb
      have hna : ¬ (1 ≤ s.pa ∧ s.pa ≤ na + 1) :=
        fun hc => Option.noConfusion (hla.mpr hc)
      refine ⟨?_, ?_, ?_, ?_, ?_⟩
      · show s.pa ≤ na + 2
        exact hpa
      · show (1 : Nat) ≤ nb + 2
        omega
      · show some Tid.b = some Tid.a ↔ 1 ≤ s.pa ∧ s.pa ≤ na + 1
        exact ⟨fun h => Tid.noConfusion (Option.some.inj h), fun hc => absurd hc hna⟩
      · show some Tid.b = some Tid.b ↔ 1 ≤ 1 ∧ 1 ≤ nb + 1
        exact ⟨fun _ => by omega, fun _ => rfl⟩
      · simp only [doneA, doneB] at hout ⊢
        rw [hp] at hout
        rcases hout with ⟨heq, -⟩ | ⟨heq, -⟩
        · exact Or.inl ⟨heq, fun _ h2 => absurd h2 (by omega)⟩
        · exact Or.inr ⟨heq, fun h1 _ => absurd h1 (by omega)⟩
  | wrB hl h1 h2 =>
      rw [hl] at hla hlb
      rw [hl]
      have hna : ¬ (1 ≤ s.pa ∧ s.pa ≤ na + 1) :=
        fun hc => Tid.noConfusion (Option.some.inj (hla.mpr hc))
      refine ⟨?_, ?_, ?_, ?_, ?_⟩
      · show s.pa ≤ na + 2
        exact hpa
      · show s.pb + 1 ≤ nb + 2
        omega
      · show some Tid.b = some Tid.a ↔ 1 ≤ s.pa ∧ s.pa ≤ na + 1
        exact ⟨fun h => Tid.noConfusion (Option.some.inj h), fun hc => absurd hc hna⟩
      · show some Tid.b = some Tid.b ↔ 1 ≤ s.pb + 1 ∧ s.pb + 1 ≤ nb + 1
        exact ⟨fun _ => by omega, fun _ => rfl⟩
      · simp only [doneA, doneB] at hout ⊢
        have hdbs : min (s.pb + 1 - 1) nb = min (s.pb - 1) nb + 1 := by omega
        rcases hout with ⟨heq, himp⟩ | ⟨heq, himp⟩
        · refine Or.inl ⟨?_, ?_⟩
          · rw [heq, List.append_assoc, hdbs, List.replicate_succ']
          · intro ha _
            show s.pa = na + 2
            omega
        · by_cases hda : min (s.pa - 1) na = 0
          · refine Or.inr ⟨?_, ?_⟩
            · rw [hda, List.replicate_zero, List.append_nil] at heq
              rw [heq, hda, List.replicate_zero, List.append_nil, hdbs,
                List.replicate_succ']
            · intro _ ha
              exact absurd ha (by omega)
          · have hpa2 : s.pa = na + 2 := by omega
            have hdb0 : min (s.pb - 1) nb = 0 := by
              by_contra hdb1
              have := himp (by omega) (by omega)
              omega
            rw [hdb0, List.replicate_zero, List.nil_append] at heq
            refine Or.inl ⟨?_, ?_⟩
            · have hdb1 : min (s.pb + 1 - 1) nb = 1 := by omega
              rw [heq, hdb1, List.replicate_one]
            · intro _ _
              show s.pa = na + 2
              exact hpa2
  | relB hl hp =>
      rw [hl] at hla hlb
      have hna : ¬ (1 ≤ s.pa ∧ s.pa ≤ na + 1) :=
        fun hc => Tid.noConfusion (Option.some.inj (hla.mpr hc))
      refine ⟨?_, ?_, ?_, ?_, ?_⟩
      · show s.pa ≤ na + 2
        exact hpa
      · show nb + 2 ≤ nb + 2
        omega
      · show (none : Option Tid) = some Tid.a ↔ 1 ≤ s.pa ∧ s.pa ≤ na + 1
        exact ⟨fun h => Option.noConfusion h, fun hc => absurd hc hna⟩
      · show (none : Option Tid) = some Tid.b ↔ 1 ≤ nb + 2 ∧ nb + 2 ≤ nb + 1
        exact ⟨fun h => Option.noConfusion h, fun hc => absurd hc (by omega)⟩
      · simp only [doneA, doneB] at hout ⊢
        rw [hp] at hout
        have hdb : min (nb + 2 - 1) nb = min (nb + 1 - 1) nb := by omega
        rw [hdb]
        rcases hout with ⟨heq, himp⟩ | ⟨heq, -⟩
        · exact Or.inl ⟨heq, himp⟩
        · exact Or.inr ⟨heq, fun _ _ => trivial⟩

/-- The invariant holds at every reachable state. -/
lemma inv_reachable (na nb : Nat) (s : CState) (h : Reachable na nb s) :
    Inv na nb s := by
  induction h with
  | refl => exact inv_init na nb
  | tail _ hstep ih => exact inv_step na nb _ _ ih hstep

/-- Claim C9: in every interleaving of a caller control-write sequence of
na writes with a keepalive-cycle sequence of nb writes — each wrapped in a
single acquisition of the control lock, as every control sequence of the
source is — the write trace observed by the transport is two contiguous
blocks, never an alternation of the two threads' writes, and the number of
concurrently held lock acquisitions never exceeds one. -/
theorem claim_c9_no_interleaving (na nb : Nat) (s : CState)
    (h : Reachable na nb s) :
    blockForm s.out ∧ lockHeld s ≤ 1 := by
  obtain ⟨-, -, -, -, hout⟩ := inv_reachable na nb s h
  constructor
  · rcases hout with ⟨heq, -⟩ | ⟨heq, -⟩
    · exact ⟨doneA na s, doneB nb s, Or.inl heq⟩
    · exact ⟨doneB nb s, doneA na s, Or.inr heq⟩
  · cases hlock : s.lock <;> simp [lockHeld, hlock]

/-- Witness for claim C9: a five-step execution — thread a acquires, writes
once, releases, then thread b acquires and writes once — is reachable with
one write each, and its trace [a, b] is in block form with at most one
holder. -/
theorem claim_c9_witness :
    blockForm (CState.mk (some Tid.b) 3 2 [Tid.a, Tid.b]).out ∧
    lockHeld ⟨some Tid.b, 3, 2, [Tid.a, Tid.b]⟩ ≤ 1 := by
  refine claim_c9_no_interleaving 1 1 _ ?_
  have s1 : Step 1 1 initState ⟨some Tid.a, 1, 0, []⟩ :=
    Step.acqA initState rfl rfl
  have s2 : Step 1 1 ⟨some Tid.a, 1, 0, []⟩ ⟨some Tid.a, 2, 0, [Tid.a]⟩ :=
    Step.wrA ⟨some Tid.a, 1, 0, []⟩ rfl (by decide) (by decide)
  have s3 : Step 1 1 ⟨some Tid.a, 2, 0, [Tid.a]⟩ ⟨none, 3, 0, [Tid.a]⟩ :=
    Step.relA ⟨some Tid.a, 2, 0, [Tid.a]⟩ rfl rfl
  have s4 : Step 1 1 ⟨none, 3, 0, [Tid.a]⟩ ⟨some Tid.b, 3, 1, [Tid.a]⟩ :=
    Step.acqB ⟨none, 3, 0, [Tid.a]⟩ rfl rfl
  have s5 : Step 1 1 ⟨some Tid.b, 3, 1, [Tid.a]⟩
      ⟨some Tid.b, 3, 2, [Tid.a, Tid.b]⟩ :=
    Step.wrB ⟨some Tid.b, 3, 1, [Tid.a]⟩ rfl (by decide) (by decide)
  exact Relation.ReflTransGen.tail
    (Relation.ReflTransGen.tail
      (Relation.ReflTransGen.tail
        (Relation.ReflTransGen.tail
          (Relation.ReflTransGen.tail Relation.ReflTransGen.refl s1) s2) s3) s4) s5

end K1
